import Mathlib

/-!
# Verification of the firefly-cli stack topology & compose generation engine

Shallow embedding of the two source files of the repository:

* `src/internal/docker/docker_config.go` — the data model (`Service`,
  `DockerComposeConfig`) and the topology generator `CreateDockerCompose`,
  together with the `init`-command validation layer (`validateName`,
  `validateCount`, `validateDatabaseProvider`, `validateBlockchainProvider`,
  `validateTokensProvider`) and the composition order of `initCmd.RunE`.
* `src/unnamed/part_000` — the `reset` command (`resetCmd.RunE`).

Modelling conventions:

* Go maps (`map[string]*Service`, `map[string]map[string]string`,
  `map[string]string`) become association lists with overwrite-on-insert
  (`mapInsert` / `mapLookup`); `map[string]struct{}` becomes a duplicate-free
  list (`setInsert`).
* Go port strings `fmt.Sprintf("%d:%d", h, c)` become pairs `(h, c)`;
  volume-mount strings `"name:path"` become pairs `(name, path)`.
* Go `int` becomes `Int` where sign matters (counts), `Nat` for ports;
  `strconv.Atoi` is embedded with its 64-bit range check: a numeral
  outside the `int64` range is a parse failure (Go's `ErrRange` makes
  `err != nil`).
* A nil-pointer dereference (the `DependsOn` amendment on a service key
  that is absent from the map) is modelled as `Option.none`: the Go
  program panics there.
* Functions of this repository that are referenced from the two source
  files but whose definitions are not under `src/` (the provider
  registries in the `stacks` package, `stacks.CheckExists`,
  `stack.ResetStack`) are modelled from the spec; each such definition's
  doc comment starts with "Modelled from the spec:".
-/

set_option maxHeartbeats 1000000

namespace FireflyCli

/-! ## Data model (docker_config.go, lines 25–69) -/

structure HealthCheck where
  test : List String
  interval : String
  timeout : String
  retries : Nat
deriving DecidableEq, Repr

structure LoggingConfig where
  driver : String
  options : List (String × String)
deriving DecidableEq, Repr

/-- One service of the compose file.  `ports` holds `(hostPort, containerPort)`
pairs (the Go code renders them as `"host:container"` strings); `volumes`
holds `(volumeName, containerPath)` pairs (rendered `"name:path"`);
`dependsOn` maps a service name to its condition string (the Go inner map is
always `{"condition": c}`, embedded as the condition string `c`). -/
structure Service where
  image : String
  environment : List (String × String)
  volumes : List (String × String)
  ports : List (Nat × Nat)
  dependsOn : List (String × String)
  healthCheck : Option HealthCheck
  logging : Option LoggingConfig
deriving DecidableEq, Repr

structure DockerComposeConfig where
  version : String
  services : List (String × Service)
  volumes : List String
deriving DecidableEq, Repr

/-- `types.Member`: the fields of `pkg/types` used by `CreateDockerCompose`. -/
structure Member where
  id : String
  exposedFireflyPort : Nat
  exposedFireflyAdminPort : Nat
  exposedPostgresPort : Nat
  exposedIPFSApiPort : Nat
  exposedIPFSGWPort : Nat
  exposedDataexchangePort : Nat
  external : Bool
deriving DecidableEq, Repr

/-- `types.Stack`: the fields used by `CreateDockerCompose`. -/
structure Stack where
  members : List Member
  swarmKey : String
  database : String
deriving DecidableEq, Repr

def StandardLogOptions : LoggingConfig :=
  { driver := "json-file"
    options := [("max-size", "10m"), ("max-file", "1")] }

/-! ## Go-map embedding -/

/-- Insert with overwrite: the semantics of `m[k] = v` on a Go map. -/
def mapInsert {α : Type} (m : List (String × α)) (k : String) (v : α) :
    List (String × α) :=
  if m.any (fun p => p.1 = k) then
    m.map (fun p => if p.1 = k then (k, v) else p)
  else m ++ [(k, v)]

/-- Lookup: the semantics of `m[k]` on a Go map (`none` = absent / nil). -/
def mapLookup {α : Type} (m : List (String × α)) (k : String) : Option α :=
  (m.find? (fun p => p.1 = k)).map (fun p => p.2)

/-- Insert into a `map[string]struct{}` used as a set. -/
def setInsert (s : List String) (k : String) : List String :=
  if k ∈ s then s else s ++ [k]

/-! ## The topology generator (docker_config.go, lines 71–152) -/

def coreService (member : Member) : Service :=
  { image := "ghcr.io/hyperledger-labs/firefly:latest"
    environment := []
    volumes := [("firefly_core_" ++ member.id, "/etc/firefly")]
    ports := [(member.exposedFireflyPort, member.exposedFireflyPort),
              (member.exposedFireflyAdminPort, member.exposedFireflyAdminPort)]
    dependsOn := [("dataexchange_" ++ member.id, "service_started")]
    healthCheck := none
    logging := some StandardLogOptions }

def postgresService (member : Member) : Service :=
  { image := "postgres"
    environment := [("POSTGRES_PASSWORD", "f1refly"),
                    ("PGDATA", "/var/lib/postgresql/data/pgdata")]
    volumes := [("postgres_" ++ member.id, "/var/lib/postgresql/data")]
    ports := [(member.exposedPostgresPort, 5432)]
    dependsOn := []
    healthCheck := some { test := ["CMD-SHELL", "pg_isready -U postgres"]
                          interval := "5s", timeout := "3s", retries := 12 }
    logging := some StandardLogOptions }

def ipfsService (swarmKey : String) (member : Member) : Service :=
  { image := "ipfs/go-ipfs"
    environment := [("IPFS_SWARM_KEY", swarmKey), ("LIBP2P_FORCE_PNET", "1")]
    volumes := [("ipfs_staging_" ++ member.id, "/export"),
                ("ipfs_data_" ++ member.id, "/data/ipfs")]
    ports := [(member.exposedIPFSApiPort, 5001),
              (member.exposedIPFSGWPort, 8080)]
    dependsOn := []
    healthCheck := none
    logging := some StandardLogOptions }

def dataexchangeService (member : Member) : Service :=
  { image := "ghcr.io/hyperledger-labs/firefly-dataexchange-https:latest"
    environment := []
    volumes := [("dataexchange_" ++ member.id, "/data")]
    ports := [(member.exposedDataexchangePort, 3000)]
    dependsOn := []
    healthCheck := none
    logging := some StandardLogOptions }

def addService (c : DockerComposeConfig) (k : String) (s : Service) :
    DockerComposeConfig :=
  { c with services := mapInsert c.services k s }

def addVolume (c : DockerComposeConfig) (v : String) : DockerComposeConfig :=
  { c with volumes := setInsert c.volumes v }

/-- Line 117 of the source:
`compose.Services["firefly_core_"+member.ID].DependsOn["postgres_"+member.ID] = …`.
When the core key is absent the Go map yields a nil `*Service` and the field
write panics; this is the `none` branch. -/
def amendCoreDependsOn (c : DockerComposeConfig) (coreKey depKey cond : String) :
    Option DockerComposeConfig :=
  match mapLookup c.services coreKey with
  | none => none
  | some svc =>
      let amended : Service :=
        { svc with dependsOn := mapInsert svc.dependsOn depKey cond }
      some { c with services := mapInsert c.services coreKey amended }

/-- The body of the `for _, member := range stack.Members` loop. -/
def processMember (swarmKey database : String) (c : DockerComposeConfig)
    (member : Member) : Option DockerComposeConfig :=
  let c1 := if member.external = false then
      addVolume (addService c ("firefly_core_" ++ member.id) (coreService member))
        ("firefly_core_" ++ member.id)
    else c
  let c2opt := if database = "postgres" then
      amendCoreDependsOn
        (addVolume (addService c1 ("postgres_" ++ member.id)
          (postgresService member)) ("postgres_" ++ member.id))
        ("firefly_core_" ++ member.id) ("postgres_" ++ member.id)
        "service_healthy"
    else some c1
  match c2opt with
  | none => none
  | some c2 =>
      let c3 := addVolume (addVolume
          (addService c2 ("ipfs_" ++ member.id) (ipfsService swarmKey member))
          ("ipfs_staging_" ++ member.id)) ("ipfs_data_" ++ member.id)
      some (addVolume (addService c3 ("dataexchange_" ++ member.id)
        (dataexchangeService member)) ("dataexchange_" ++ member.id))

def emptyCompose : DockerComposeConfig :=
  { version := "2.1", services := [], volumes := [] }

def CreateDockerCompose (stack : Stack) : Option DockerComposeConfig :=
  stack.members.foldlM (processMember stack.swarmKey stack.database) emptyCompose

/-! ## Provider registries

The registries live in the `stacks` package, which is not under `src/`;
only their callers are.  They are modelled from the spec (§4.1: closed
enumerations with case-sensitive exact-match parsing; §9: the blockchain
registry's parse set is strictly wider than the supported allow-list, so it
holds at least one parseable-but-unsupported token, modelled as "besu"). -/

/-- Modelled from the spec: the database-kind registry (`stacks`
package, `DatabaseSelectionFromString`); tokens from the `--database` flag
help and the generator's `"postgres"` check. -/
inductive DatabaseSelection
  | sqlite3
  | postgres
deriving DecidableEq, Repr

/-- Modelled from the spec: case-sensitive exact-match parse of a database
kind token. -/
def DatabaseSelectionFromString (s : String) : Option DatabaseSelection :=
  if s = "sqlite3" then some .sqlite3
  else if s = "postgres" then some .postgres
  else none

/-- Modelled from the spec: the blockchain-provider registry parses more
tokens than the generator supports; `goEthereum` ("geth") is the supported
value, `besu` stands for the registry's extra parseable token. -/
inductive BlockchainProvider
  | goEthereum
  | besu
deriving DecidableEq, Repr

/-- Modelled from the spec: case-sensitive exact-match parse of a blockchain
provider token (`stacks.BlockchainProviderFromString`). -/
def BlockchainProviderFromString (s : String) : Option BlockchainProvider :=
  if s = "geth" then some .goEthereum
  else if s = "besu" then some .besu
  else none

/-- Modelled from the spec: the tokens-provider registry; token from the
`--tokens-provider` flag default. -/
inductive TokensProvider
  | erc1155
deriving DecidableEq, Repr

/-- Modelled from the spec: case-sensitive exact-match parse of a tokens
provider token (`stacks.TokensProviderFromString`). -/
def TokensProviderFromString (s : String) : Option TokensProvider :=
  if s = "erc1155" then some .erc1155 else none

/-! ## Validation layer (docker_config.go `package cmd` part, lines 245–293) -/

/-- One constructor per `errors.New` / `fmt.Errorf` site of the validation
functions. -/
inductive ValidationError
  | unknownDatabaseProvider
  | unknownBlockchainProvider
  | unsupportedBlockchainProvider
  | unknownTokensProvider
  | emptyName
  | nameConflict
  | notANumber
  | nonPositiveCount
  | tooManyExternal
deriving DecidableEq, Repr

def digitsToNat : List Char → Option Nat
  | [] => none
  | cs => cs.foldlM (fun acc c =>
      if c.isDigit then some (acc * 10 + (c.toNat - 48)) else none) 0

/-- `strconv.Atoi` (= `ParseInt(s, 10, 0)` on a 64-bit platform): optional
single sign followed by at least one decimal digit, and the value must fit
a 64-bit signed int — an out-of-range numeral is `ErrRange`, hence
`err != nil`, modelled as `none`. -/
def atoi (s : String) : Option Int :=
  let signed : Option Int :=
    match s.data with
    | '+' :: rest => (digitsToNat rest).map (fun n => (n : Int))
    | '-' :: rest => (digitsToNat rest).map (fun n => -(n : Int))
    | l => (digitsToNat l).map (fun n => (n : Int))
  signed.bind (fun i =>
    if -(2 ^ 63) ≤ i ∧ i ≤ 2 ^ 63 - 1 then some i else none)

/-- Go's `unicode.IsSpace`: White_Space code points — `\t`, `\n`, `\v`,
`\f`, `\r`, space, NEL (U+0085), NBSP (U+00A0), and the Unicode space
separators U+1680, U+2000–U+200A, U+2028, U+2029, U+202F, U+205F,
U+3000. -/
def goIsSpace (c : Char) : Bool :=
  decide (c.toNat = 9 ∨ c.toNat = 10 ∨ c.toNat = 11 ∨ c.toNat = 12 ∨
    c.toNat = 13 ∨ c.toNat = 32 ∨ c.toNat = 0x85 ∨ c.toNat = 0xA0 ∨
    c.toNat = 0x1680 ∨ (0x2000 ≤ c.toNat ∧ c.toNat ≤ 0x200A) ∨
    c.toNat = 0x2028 ∨ c.toNat = 0x2029 ∨ c.toNat = 0x202F ∨
    c.toNat = 0x205F ∨ c.toNat = 0x3000)

/-- `strings.TrimSpace`, embedded structurally over the character list,
trimming Go's Unicode white space on both ends. -/
def trimSpace (s : String) : String :=
  String.mk (((s.data.dropWhile goIsSpace).reverse.dropWhile
    goIsSpace).reverse)

/-- `validateName` (lines 245–254).  `stacks.CheckExists` is not under
`src/`; modelled from the spec (§4.4: pure existence lookup) as membership
in the list of persisted stack names. -/
def validateName (existing : List String) (stackName : String) :
    Option ValidationError :=
  if trimSpace stackName = "" then some .emptyName
  else if stackName ∈ existing then some .nameConflict
  else none

/-- `validateCount` (lines 256–265); `ext` is the global
`initOptions.ExternalProcesses`. -/
def validateCount (ext : Int) (input : String) : Option ValidationError :=
  match atoi input with
  | none => some .notANumber
  | some i =>
      if i ≤ 0 then some .nonPositiveCount
      else if ext ≥ i then some .tooManyExternal
      else none

/-- `validateDatabaseProvider` (lines 267–273). -/
def validateDatabaseProvider (input : String) : Option ValidationError :=
  match DatabaseSelectionFromString input with
  | none => some .unknownDatabaseProvider
  | some _ => none

/-- `validateBlockchainProvider` (lines 275–285): parse via the registry,
then the allow-list check `blockchainSelection != stacks.GoEthereum`. -/
def validateBlockchainProvider (input : String) : Option ValidationError :=
  match BlockchainProviderFromString input with
  | none => some .unknownBlockchainProvider
  | some sel => if sel ≠ .goEthereum then some .unsupportedBlockchainProvider
                else none

/-- `validateTokensProvider` (lines 287–293). -/
def validateTokensProvider (input : String) : Option ValidationError :=
  match TokensProviderFromString input with
  | none => some .unknownTokensProvider
  | some _ => none

/-- The validation sequence of `initCmd.RunE` (lines 193–228), on the path
where both positional arguments are supplied: database provider, blockchain
provider, tokens provider, stack name, member count — returning the first
failure. -/
def initCmdValidate (existing : List String) (ext : Int)
    (dbSel bcSel tkSel stackName memberCountInput : String) :
    Option ValidationError :=
  match validateDatabaseProvider dbSel with
  | some e => some e
  | none =>
  match validateBlockchainProvider bcSel with
  | some e => some e
  | none =>
  match validateTokensProvider tkSel with
  | some e => some e
  | none =>
  match validateName existing stackName with
  | some e => some e
  | none => validateCount ext memberCountInput

/-- The composition order asserted by the spec (§4.2): name first, then
count, then the three provider validations.  Used only to compare with
`initCmdValidate`. -/
def specOrderValidate (existing : List String) (ext : Int)
    (dbSel bcSel tkSel stackName memberCountInput : String) :
    Option ValidationError :=
  match validateName existing stackName with
  | some e => some e
  | none =>
  match validateCount ext memberCountInput with
  | some e => some e
  | none =>
  match validateDatabaseProvider dbSel with
  | some e => some e
  | none =>
  match validateBlockchainProvider bcSel with
  | some e => some e
  | none => validateTokensProvider tkSel

/-! ## The reset command (src/unnamed/part_000, `resetCmd.RunE`) -/

/-- Persisted descriptor of a named stack.  `stacks.LoadStack` /
`ResetStack` are not under `src/`; per the spec (§3 StackRecord, §4.4
reset) a record holds the stack's configuration and its data, and reset
clears the data keeping the configuration. -/
structure StackRecord where
  config : String
  data : List String
deriving DecidableEq, Repr

/-- Modelled from the spec: `stack.ResetStack` clears all data volumes'
contents while preserving the stack's configuration. -/
def resetRecord (r : StackRecord) : StackRecord :=
  { r with data := [] }

/-- `strings.ToLower`, embedded structurally over the character list
(ASCII case mapping). -/
def lowerChar (c : Char) : Char :=
  if 'A' ≤ c ∧ c ≤ 'Z' then Char.ofNat (c.toNat + 32) else c

def lowerStr (s : String) : String :=
  String.mk (s.data.map lowerChar)

/-- Line 59 of the source: the confirmation is affirmative exactly when the
prompt returned without error (`confirm = some result`) and
`strings.ToLower(result) == "y"`. -/
def confirmAffirmative (confirm : Option String) : Bool :=
  match confirm with
  | none => false
  | some s => lowerStr s = "y"

/-- `resetCmd.RunE`: `records` is the persisted storage (name ↦
StackRecord), `confirm` the prompt outcome (`none` = prompt error).
Returns the persisted storage after the command together with the
command's error result (`Except.error` = the Go `RunE` returned an
error). -/
def resetCmd (records : List (String × StackRecord)) (force : Bool)
    (args : List String) (confirm : Option String) :
    Except String (List (String × StackRecord)) :=
  match args with
  | [] => .error "no stack specified"
  | stackName :: _ =>
      if (mapLookup records stackName).isSome then
        if force = false ∧ confirmAffirmative confirm = false then
          -- "canceled": declined confirmation returns nil without touching
          -- the stack
          .ok records
        else
          .ok (mapInsert records stackName
            (resetRecord ((mapLookup records stackName).getD
              { config := "", data := [] })))
      else .error ("stack does not exist")

/-! ## Derived notions for the topology invariants -/

/-- Volume names referenced by a service's volume-mount list. -/
def refNames (s : Service) : List String := s.volumes.map Prod.fst

/-- Host (published) ports of one service. -/
def hostPortsOf (s : Service) : List Nat := s.ports.map Prod.fst

/-- All published host ports across all services of a compose config. -/
def allHostPorts (c : DockerComposeConfig) : List Nat :=
  c.services.foldr (fun p acc => hostPortsOf p.2 ++ acc) []

/-- The six exposed port fields of one member. -/
def memberPorts (m : Member) : List Nat :=
  [m.exposedFireflyPort, m.exposedFireflyAdminPort, m.exposedPostgresPort,
   m.exposedIPFSApiPort, m.exposedIPFSGWPort, m.exposedDataexchangePort]

/-- All exposed port fields across a member list. -/
def allExposedPorts (ms : List Member) : List Nat :=
  ms.foldr (fun m acc => memberPorts m ++ acc) []

/-- The volume names the generator associates with a service key: service
keys and their volumes share the `family_memberid` shape, and except for
the `ipfs_` family (whose two volumes interpose `staging_` / `data_`) the
volume name equals the key. -/
def keyRefs (k : String) : List String :=
  if k.data.take 5 = ['i', 'p', 'f', 's', '_'] then
    ["ipfs_staging_" ++ String.mk (k.data.drop 5),
     "ipfs_data_" ++ String.mk (k.data.drop 5)]
  else [k]

/-- First character of a service key; the four service families start with
the pairwise distinct characters `f`, `p`, `i`, `d`. -/
def headOf (k : String) : Option Char := k.data.head?

/-- Service `a` declares a dependency on service `b`. -/
def dependsRel (c : DockerComposeConfig) (a b : String) : Prop :=
  ∃ s, mapLookup c.services a = some s ∧ ∃ cond, (b, cond) ∈ s.dependsOn

/-- `keyStarts pre k`: the key `k` begins with the family name `pre`. -/
def keyStarts (pre k : String) : Bool := k.data.take pre.data.length == pre.data

/-- Number of services whose key begins with `pre`. -/
def countPre (c : DockerComposeConfig) (pre : String) : Nat :=
  (c.services.filter (fun p => keyStarts pre p.1)).length

/-- The core-service block of the member loop (lines 80–95). -/
def coreStep (c : DockerComposeConfig) (m : Member) : DockerComposeConfig :=
  if m.external = false then
    addVolume (addService c ("firefly_core_" ++ m.id) (coreService m))
      ("firefly_core_" ++ m.id)
  else c

/-- The postgres block of the member loop (lines 97–118), including the
core-service amendment. -/
def postgresStep (db : String) (c : DockerComposeConfig) (m : Member) :
    Option DockerComposeConfig :=
  if db = "postgres" then
    amendCoreDependsOn
      (addVolume (addService c ("postgres_" ++ m.id) (postgresService m))
        ("postgres_" ++ m.id))
      ("firefly_core_" ++ m.id) ("postgres_" ++ m.id) "service_healthy"
  else some c

/-- The ipfs block of the member loop (lines 120–138). -/
def ipfsStep (sk : String) (c : DockerComposeConfig) (m : Member) :
    DockerComposeConfig :=
  addVolume (addVolume
    (addService c ("ipfs_" ++ m.id) (ipfsService sk m))
    ("ipfs_staging_" ++ m.id)) ("ipfs_data_" ++ m.id)

/-- The data-exchange block of the member loop (lines 140–147). -/
def dxStep (c : DockerComposeConfig) (m : Member) : DockerComposeConfig :=
  addVolume (addService c ("dataexchange_" ++ m.id) (dataexchangeService m))
    ("dataexchange_" ++ m.id)

/-- Both directions of the volume-closure invariant (§3 VolumeSet, §8). -/
def VolumeClosure (c : DockerComposeConfig) : Prop :=
  (∀ p ∈ c.services, ∀ v ∈ refNames p.2, v ∈ c.volumes) ∧
  (∀ v ∈ c.volumes, ∃ p ∈ c.services, v ∈ refNames p.2)

/-- Every service's referenced-volume list is the canonical one determined
by its key. -/
def KeyRefInv (c : DockerComposeConfig) : Prop :=
  ∀ p ∈ c.services, refNames p.2 = keyRefs p.1

/-- Only core services (keys starting with `f`) carry dependency edges, and
every edge points at a non-`f` key. -/
def DepInv (c : DockerComposeConfig) : Prop :=
  ∀ p ∈ c.services, ∀ q ∈ p.2.dependsOn,
    headOf p.1 = some 'f' ∧ headOf q.1 ≠ some 'f'

/-- Published-port shape per service family: core maps host ports to
identical container ports, the other families map one (or, for ipfs, two)
host ports to the fixed container ports 5432 / 5001, 8080 / 3000. -/
def PortShape (k : String) (s : Service) : Prop :=
  (headOf k = some 'f' → s.ports.length = 2 ∧ ∀ q ∈ s.ports, q.1 = q.2) ∧
  (headOf k = some 'p' → ∃ h, s.ports = [(h, 5432)]) ∧
  (headOf k = some 'i' → ∃ h g, s.ports = [(h, 5001), (g, 8080)]) ∧
  (headOf k = some 'd' → ∃ h, s.ports = [(h, 3000)])

def PortShapeInv (c : DockerComposeConfig) : Prop :=
  ∀ p ∈ c.services, PortShape p.1 p.2

/-- The service keys of a compose config are duplicate-free (Go map keys). -/
def KeysNodup (c : DockerComposeConfig) : Prop :=
  (c.services.map Prod.fst).Nodup

/-- Host ports contributed by a service list. -/
def portsOfList (l : List (String × Service)) : List Nat :=
  l.foldr (fun p acc => hostPortsOf p.2 ++ acc) []

/-! ## Concrete inputs used by the scenario claims and witnesses -/

def mkMember (id : String) (base : Nat) (ext : Bool) : Member :=
  { id := id
    exposedFireflyPort := base
    exposedFireflyAdminPort := base + 1
    exposedPostgresPort := base + 2
    exposedIPFSApiPort := base + 3
    exposedIPFSGWPort := base + 4
    exposedDataexchangePort := base + 5
    external := ext }

/-- A config the validation layer accepts (memberCount 2, one external
process, database postgres) whose member list therefore holds one external
member. -/
def c1stack : Stack :=
  { members := [mkMember "0" 5000 false, mkMember "1" 5100 true]
    swarmKey := "swarm", database := "postgres" }

/-- The §8 scenario: memberCount 2, postgres, no external processes. -/
def c2stack : Stack :=
  { members := [mkMember "0" 5000 false, mkMember "1" 5100 false]
    swarmKey := "swarm", database := "postgres" }

def c2compose : DockerComposeConfig :=
  (CreateDockerCompose c2stack).getD emptyCompose

def c5stack : Stack :=
  { members := [mkMember "a" 6000 false, mkMember "b" 6100 true]
    swarmKey := "swarm", database := "sqlite3" }

def c5compose : DockerComposeConfig :=
  (CreateDockerCompose c5stack).getD emptyCompose

def c6stack : Stack :=
  { members := [mkMember "a" 6000 false, mkMember "b" 6100 false]
    swarmKey := "swarm", database := "postgres" }

def c6compose : DockerComposeConfig :=
  (CreateDockerCompose c6stack).getD emptyCompose

def c7stack : Stack :=
  { members := [mkMember "a" 6000 false, mkMember "b" 6100 false]
    swarmKey := "swarm", database := "postgres" }

def c7compose : DockerComposeConfig :=
  (CreateDockerCompose c7stack).getD emptyCompose

def c10stack : Stack :=
  { members := [mkMember "a" 6000 false, mkMember "b" 6100 false]
    swarmKey := "swarm", database := "postgres" }

def c10compose : DockerComposeConfig :=
  (CreateDockerCompose c10stack).getD emptyCompose

/-! ## Association-list and set lemmas -/

theorem mem_of_mem_mapInsert {α : Type} {m : List (String × α)} {k : String}
    {v : α} {p : String × α} (hp : p ∈ mapInsert m k v) :
    p = (k, v) ∨ p ∈ m := by
  unfold mapInsert at hp
  split at hp
  · obtain ⟨q, hq, hfq⟩ := List.mem_map.mp hp
    by_cases h : q.1 = k
    · rw [if_pos h] at hfq
      exact Or.inl hfq.symm
    · rw [if_neg h] at hfq
      exact Or.inr (hfq ▸ hq)
  · rcases List.mem_append.mp hp with h | h
    · exact Or.inr h
    · exact Or.inl (by simpa using h)

theorem self_mem_mapInsert {α : Type} (m : List (String × α)) (k : String)
    (v : α) : (k, v) ∈ mapInsert m k v := by
  unfold mapInsert
  split
  · rename_i h
    obtain ⟨q, hq, hqk⟩ := List.any_eq_true.mp h
    refine List.mem_map.mpr ⟨q, hq, ?_⟩
    rw [if_pos (of_decide_eq_true hqk)]
  · exact List.mem_append.mpr (Or.inr (by simp))

theorem mem_mapInsert_of_ne {α : Type} {m : List (String × α)}
    {p : String × α} (k : String) (v : α) (hp : p ∈ m) (hne : p.1 ≠ k) :
    p ∈ mapInsert m k v := by
  unfold mapInsert
  split
  · exact List.mem_map.mpr ⟨p, hp, by rw [if_neg hne]⟩
  · exact List.mem_append.mpr (Or.inl hp)

theorem mapLookup_cons {α : Type} (p : String × α) (m : List (String × α))
    (k : String) :
    mapLookup (p :: m) k = if p.1 = k then some p.2 else mapLookup m k := by
  unfold mapLookup
  rw [List.find?_cons]
  by_cases h : p.1 = k <;> simp [h]

theorem mapLookup_mem {α : Type} {m : List (String × α)} {k : String}
    {v : α} (h : mapLookup m k = some v) : (k, v) ∈ m := by
  induction m with
  | nil => simp [mapLookup] at h
  | cons p m ih =>
      rw [mapLookup_cons] at h
      by_cases hp : p.1 = k
      · rw [if_pos hp] at h
        obtain ⟨a, b⟩ := p
        obtain rfl : a = k := hp
        obtain rfl : b = v := Option.some.inj h
        exact List.mem_cons_self _ _
      · rw [if_neg hp] at h
        exact List.mem_cons_of_mem p (ih h)

theorem mapLookup_map_replace {α : Type} {m : List (String × α)}
    {k k' : String} {v : α} (h : k' ≠ k) :
    mapLookup (m.map (fun p => if p.1 = k then (k, v) else p)) k' =
      mapLookup m k' := by
  induction m with
  | nil => rfl
  | cons p m ih =>
      rw [List.map_cons, mapLookup_cons, mapLookup_cons]
      by_cases hp : p.1 = k
      · rw [if_pos hp]
        have h1 : ¬ ((k, v).1 = k') := fun hc => h (hc ▸ rfl)
        have h2 : ¬ (p.1 = k') := fun hc => h (hc ▸ hp.symm ▸ rfl)
        rw [if_neg h1, if_neg h2, ih]
      · rw [if_neg hp]
        by_cases hk : p.1 = k'
        · rw [if_pos hk, if_pos hk]
        · rw [if_neg hk, if_neg hk, ih]

theorem mapLookup_append_right_none {α : Type} (m : List (String × α))
    (x : String × α) (k : String) (h : ¬ x.1 = k) :
    mapLookup (m ++ [x]) k = mapLookup m k := by
  induction m with
  | nil => simp [mapLookup_cons, h, mapLookup]
  | cons p m ih =>
      rw [List.cons_append, mapLookup_cons, mapLookup_cons, ih]

theorem mapLookup_map_replace_self {α : Type} (m : List (String × α))
    (k : String) (v : α) :
    m.any (fun p => p.1 = k) = true →
    mapLookup (m.map (fun p => if p.1 = k then (k, v) else p)) k = some v := by
  induction m with
  | nil => intro h; simp at h
  | cons p m ih =>
      intro h
      rw [List.map_cons]
      by_cases hp : p.1 = k
      · rw [if_pos hp, mapLookup_cons]
        simp
      · rw [if_neg hp, mapLookup_cons, if_neg hp]
        apply ih
        simp only [List.any_cons, Bool.or_eq_true, decide_eq_true_eq] at h
        rcases h with h | h
        · exact absurd h hp
        · simpa using h

theorem mapLookup_append_single_self {α : Type} (m : List (String × α))
    (k : String) (v : α) :
    (∀ p ∈ m, ¬ p.1 = k) → mapLookup (m ++ [(k, v)]) k = some v := by
  induction m with
  | nil => intro _; simp [mapLookup_cons]
  | cons p m ih =>
      intro h
      rw [List.cons_append, mapLookup_cons,
        if_neg (h p (List.mem_cons_self p m))]
      exact ih (fun q hq => h q (List.mem_cons_of_mem p hq))

theorem mapLookup_mapInsert_self {α : Type} (m : List (String × α))
    (k : String) (v : α) : mapLookup (mapInsert m k v) k = some v := by
  unfold mapInsert
  split
  · rename_i h
    exact mapLookup_map_replace_self m k v h
  · rename_i h
    apply mapLookup_append_single_self
    intro p hp hc
    exact h (List.any_eq_true.mpr ⟨p, hp, by simpa using hc⟩)

theorem mapLookup_mapInsert_of_ne {α : Type} (m : List (String × α))
    {k k' : String} (v : α) (h : k' ≠ k) :
    mapLookup (mapInsert m k v) k' = mapLookup m k' := by
  unfold mapInsert
  split
  · exact mapLookup_map_replace h
  · exact mapLookup_append_right_none m (k, v) k' (fun hc => h (hc ▸ rfl))

theorem mem_setInsert_iff (s : List String) (x y : String) :
    y ∈ setInsert s x ↔ y = x ∨ y ∈ s := by
  unfold setInsert
  split
  · rename_i h
    constructor
    · exact Or.inr
    · rintro (rfl | hy)
      · exact h
      · exact hy
  · simp [or_comm]

/-! ## Structure of the member loop -/

theorem processMember_some {sk db : String} {c : DockerComposeConfig}
    {m : Member} {c' : DockerComposeConfig}
    (hp : processMember sk db c m = some c') :
    ∃ c2, postgresStep db (coreStep c m) m = some c2 ∧
      c' = dxStep (ipfsStep sk c2 m) m := by
  unfold processMember at hp
  unfold postgresStep coreStep ipfsStep dxStep
  by_cases hext : m.external = false <;> by_cases hdb : db = "postgres" <;>
    simp only [hext, hdb, if_true, if_false, ite_true, ite_false] at hp ⊢
  case pos =>
    split at hp
    · exact Option.noConfusion hp
    · rename_i c2 heq
      exact ⟨c2, heq, (Option.some.inj hp).symm⟩
  case neg =>
    exact ⟨_, rfl, (Option.some.inj hp).symm⟩
  case pos =>
    split at hp
    · exact Option.noConfusion hp
    · rename_i c2 heq
      exact ⟨c2, heq, (Option.some.inj hp).symm⟩
  case neg =>
    exact ⟨_, rfl, (Option.some.inj hp).symm⟩

theorem foldlM_preserve {P : DockerComposeConfig → Prop} (sk db : String)
    (step : ∀ c m c', P c → processMember sk db c m = some c' → P c') :
    ∀ (ms : List Member) (c₀ c : DockerComposeConfig), P c₀ →
      List.foldlM (processMember sk db) c₀ ms = some c → P c := by
  intro ms
  induction ms with
  | nil =>
      intro c₀ c h hf
      rw [List.foldlM_nil] at hf
      exact (Option.some.inj hf) ▸ h
  | cons m ms ih =>
      intro c₀ c h hf
      rw [List.foldlM_cons] at hf
      cases hx : processMember sk db c₀ m with
      | none => rw [hx] at hf; exact Option.noConfusion hf
      | some c₁ =>
          rw [hx] at hf
          exact ih c₁ c (step c₀ m c₁ h hx) hf

/-! ## Reduction of the key-shape functions on the four families -/

theorem keyRefs_firefly (id : String) :
    keyRefs ("firefly_core_" ++ id) = ["firefly_core_" ++ id] := rfl

theorem keyRefs_postgres (id : String) :
    keyRefs ("postgres_" ++ id) = ["postgres_" ++ id] := rfl

theorem keyRefs_ipfs (id : String) :
    keyRefs ("ipfs_" ++ id) = ["ipfs_staging_" ++ id, "ipfs_data_" ++ id] :=
  rfl

theorem keyRefs_dataexchange (id : String) :
    keyRefs ("dataexchange_" ++ id) = ["dataexchange_" ++ id] := rfl

/-! ## Volume-fold lemmas -/

theorem foldl_addVolume_services (vs : List String) (c : DockerComposeConfig) :
    (vs.foldl addVolume c).services = c.services := by
  induction vs generalizing c with
  | nil => rfl
  | cons v vs ih => rw [List.foldl_cons, ih]; rfl

theorem mem_foldl_addVolume (vs : List String) (c : DockerComposeConfig)
    (x : String) :
    x ∈ (vs.foldl addVolume c).volumes ↔ x ∈ c.volumes ∨ x ∈ vs := by
  induction vs generalizing c with
  | nil => simp
  | cons v vs ih =>
      rw [List.foldl_cons, ih]
      show x ∈ setInsert c.volumes v ∨ x ∈ vs ↔ _
      rw [mem_setInsert_iff]
      simp [List.mem_cons]
      tauto

/-! ## Preservation of the volume-closure invariant -/

theorem VC_addBlock (c : DockerComposeConfig) (k : String) (s : Service)
    (hK : KeyRefInv c) (hV : VolumeClosure c)
    (href : refNames s = keyRefs k) :
    KeyRefInv ((keyRefs k).foldl addVolume (addService c k s)) ∧
    VolumeClosure ((keyRefs k).foldl addVolume (addService c k s)) := by
  have hs : ((keyRefs k).foldl addVolume (addService c k s)).services =
      mapInsert c.services k s := by
    rw [foldl_addVolume_services]; rfl
  have hv : ∀ x, x ∈ ((keyRefs k).foldl addVolume
      (addService c k s)).volumes ↔ x ∈ c.volumes ∨ x ∈ keyRefs k := by
    intro x
    rw [mem_foldl_addVolume]
    exact Iff.rfl
  refine ⟨?_, ?_, ?_⟩
  · intro p hp
    rw [hs] at hp
    rcases mem_of_mem_mapInsert hp with rfl | hp'
    · exact href
    · exact hK p hp'
  · intro p hp v hv'
    rw [hs] at hp
    rw [hv v]
    rcases mem_of_mem_mapInsert hp with rfl | hp'
    · exact Or.inr (href ▸ hv')
    · exact Or.inl (hV.1 p hp' v hv')
  · intro v hvmem
    rw [hv v] at hvmem
    rcases hvmem with hvc | hvk
    · obtain ⟨p, hp, hpv⟩ := hV.2 v hvc
      by_cases hpk : p.1 = k
      · refine ⟨(k, s), ?_, ?_⟩
        · rw [hs]; exact self_mem_mapInsert _ _ _
        · rw [href, ← hpk, ← hK p hp]
          exact hpv
      · exact ⟨p, by rw [hs]; exact mem_mapInsert_of_ne k s hp hpk, hpv⟩
    · exact ⟨(k, s), by rw [hs]; exact self_mem_mapInsert _ _ _, href ▸ hvk⟩

theorem VC_amend {c c' : DockerComposeConfig} {ck dk cond : String}
    (hK : KeyRefInv c) (hV : VolumeClosure c)
    (h : amendCoreDependsOn c ck dk cond = some c') :
    KeyRefInv c' ∧ VolumeClosure c' := by
  unfold amendCoreDependsOn at h
  cases hl : mapLookup c.services ck with
  | none => rw [hl] at h; exact Option.noConfusion h
  | some svc =>
      rw [hl] at h
      have hc' := (Option.some.inj h).symm
      subst hc'
      have hmem : (ck, svc) ∈ c.services := mapLookup_mem hl
      refine ⟨?_, ?_, ?_⟩
      · intro p hp
        rcases mem_of_mem_mapInsert hp with rfl | hp'
        · exact hK (ck, svc) hmem
        · exact hK p hp'
      · intro p hp v hv'
        rcases mem_of_mem_mapInsert hp with rfl | hp'
        · exact hV.1 (ck, svc) hmem v hv'
        · exact hV.1 p hp' v hv'
      · intro v hvm
        obtain ⟨p, hp, hpv⟩ := hV.2 v hvm
        by_cases hpk : p.1 = ck
        · refine ⟨(ck, { svc with
              dependsOn := mapInsert svc.dependsOn dk cond }),
            self_mem_mapInsert _ _ _, ?_⟩
          show v ∈ refNames svc
          have h1 : refNames svc = keyRefs ck := hK (ck, svc) hmem
          have h2 : refNames p.2 = keyRefs p.1 := hK p hp
          rw [h1, ← hpk, ← h2]
          exact hpv
        · exact ⟨p, mem_mapInsert_of_ne ck _ hp hpk, hpv⟩

theorem VC_processMember (sk db : String) (c : DockerComposeConfig)
    (m : Member) (c' : DockerComposeConfig)
    (h : KeyRefInv c ∧ VolumeClosure c)
    (hp : processMember sk db c m = some c') :
    KeyRefInv c' ∧ VolumeClosure c' := by
  obtain ⟨c2, hx, rfl⟩ := processMember_some hp
  have h1 : KeyRefInv (coreStep c m) ∧ VolumeClosure (coreStep c m) := by
    unfold coreStep
    split
    · exact VC_addBlock c ("firefly_core_" ++ m.id) (coreService m)
        h.1 h.2 rfl
    · exact h
  have h2 : KeyRefInv c2 ∧ VolumeClosure c2 := by
    unfold postgresStep at hx
    split at hx
    · exact VC_amend
        (VC_addBlock (coreStep c m) ("postgres_" ++ m.id)
          (postgresService m) h1.1 h1.2 rfl).1
        (VC_addBlock (coreStep c m) ("postgres_" ++ m.id)
          (postgresService m) h1.1 h1.2 rfl).2 hx
    · exact (Option.some.inj hx) ▸ h1
  have h3 : KeyRefInv (ipfsStep sk c2 m) ∧
      VolumeClosure (ipfsStep sk c2 m) :=
    VC_addBlock c2 ("ipfs_" ++ m.id) (ipfsService sk m) h2.1 h2.2 rfl
  exact VC_addBlock (ipfsStep sk c2 m) ("dataexchange_" ++ m.id)
    (dataexchangeService m) h3.1 h3.2 rfl

theorem VC_empty : KeyRefInv emptyCompose ∧ VolumeClosure emptyCompose := by
  refine ⟨?_, ?_, ?_⟩
  · intro p hp
    simp [emptyCompose] at hp
  · intro p hp
    simp [emptyCompose] at hp
  · intro v hv
    simp [emptyCompose] at hv

/-! ## Preservation of the dependency invariant -/

theorem DepInv_addService {c : DockerComposeConfig} (k : String) (s : Service)
    (hd : DepInv c)
    (hs : ∀ q ∈ s.dependsOn, headOf k = some 'f' ∧ headOf q.1 ≠ some 'f') :
    DepInv (addService c k s) := by
  intro p hp q hq
  rcases mem_of_mem_mapInsert hp with rfl | hp'
  · exact hs q hq
  · exact hd p hp' q hq

theorem DepInv_amend {c c' : DockerComposeConfig} {ck dk cond : String}
    (hd : DepInv c) (hck : headOf ck = some 'f')
    (hdk : headOf dk ≠ some 'f')
    (h : amendCoreDependsOn c ck dk cond = some c') : DepInv c' := by
  unfold amendCoreDependsOn at h
  cases hl : mapLookup c.services ck with
  | none => rw [hl] at h; exact Option.noConfusion h
  | some svc =>
      rw [hl] at h
      have hc' := (Option.some.inj h).symm
      subst hc'
      have hmem := mapLookup_mem hl
      intro p hp q hq
      rcases mem_of_mem_mapInsert hp with rfl | hp'
      · rcases mem_of_mem_mapInsert hq with rfl | hq'
        · exact ⟨hck, hdk⟩
        · exact hd (ck, svc) hmem q hq'
      · exact hd p hp' q hq

theorem DepInv_processMember (sk db : String) (c : DockerComposeConfig)
    (m : Member) (c' : DockerComposeConfig) (hd : DepInv c)
    (hp : processMember sk db c m = some c') : DepInv c' := by
  obtain ⟨c2, hx, rfl⟩ := processMember_some hp
  have h1 : DepInv (coreStep c m) := by
    unfold coreStep
    split
    · refine DepInv_addService _ _ hd ?_
      intro q hq
      simp only [coreService, List.mem_singleton] at hq
      subst hq
      exact ⟨rfl, show (some 'd' : Option Char) ≠ some 'f' by decide⟩
    · exact hd
  have h2 : DepInv c2 := by
    unfold postgresStep at hx
    split at hx
    · refine DepInv_amend ?_ ?_ ?_ hx
      · refine DepInv_addService _ _ h1 ?_
        intro q hq
        simp [postgresService] at hq
      · rfl
      · exact show (some 'p' : Option Char) ≠ some 'f' by decide
    · exact (Option.some.inj hx) ▸ h1
  have h3 : DepInv (ipfsStep sk c2 m) := by
    refine DepInv_addService _ _ h2 ?_
    intro q hq
    simp [ipfsService] at hq
  refine DepInv_addService _ _ h3 ?_
  intro q hq
  simp [dataexchangeService] at hq

theorem DepInv_empty : DepInv emptyCompose := by
  intro p hp
  simp [emptyCompose] at hp

theorem dependsRel_heads {c : DockerComposeConfig} (hd : DepInv c)
    {a b : String} (h : dependsRel c a b) :
    headOf a = some 'f' ∧ headOf b ≠ some 'f' := by
  obtain ⟨s, hl, cond, hmem⟩ := h
  exact hd (a, s) (mapLookup_mem hl) (b, cond) hmem

theorem transGen_head {c : DockerComposeConfig} (hd : DepInv c)
    {x y : String} (h : Relation.TransGen (dependsRel c) x y) :
    headOf x = some 'f' := by
  induction h with
  | single h1 => exact (dependsRel_heads hd h1).1
  | tail _ _ ih => exact ih

theorem transGen_last {c : DockerComposeConfig} (hd : DepInv c)
    {x y : String} (h : Relation.TransGen (dependsRel c) x y) :
    headOf y ≠ some 'f' := by
  induction h with
  | single h1 => exact (dependsRel_heads hd h1).2
  | tail _ h2 _ => exact (dependsRel_heads hd h2).2

theorem DepInv_acyclic {c : DockerComposeConfig} (hd : DepInv c) :
    ¬ ∃ a, Relation.TransGen (dependsRel c) a a := by
  rintro ⟨a, h⟩
  exact transGen_last hd h (transGen_head hd h)

/-! ## Preservation of the port-shape invariant -/

theorem PortShapeInv_addService {c : DockerComposeConfig} (k : String)
    (s : Service) (h : PortShapeInv c) (hs : PortShape k s) :
    PortShapeInv (addService c k s) := by
  intro p hp
  rcases mem_of_mem_mapInsert hp with rfl | hp'
  · exact hs
  · exact h p hp'

theorem PortShapeInv_amend {c c' : DockerComposeConfig} {ck dk cond : String}
    (h : PortShapeInv c) (ha : amendCoreDependsOn c ck dk cond = some c') :
    PortShapeInv c' := by
  unfold amendCoreDependsOn at ha
  cases hl : mapLookup c.services ck with
  | none => rw [hl] at ha; exact Option.noConfusion ha
  | some svc =>
      rw [hl] at ha
      have hc' := (Option.some.inj ha).symm
      subst hc'
      intro p hp
      rcases mem_of_mem_mapInsert hp with rfl | hp'
      · exact h (ck, svc) (mapLookup_mem hl)
      · exact h p hp'

theorem portShape_core (m : Member) :
    PortShape ("firefly_core_" ++ m.id) (coreService m) := by
  refine ⟨?_, ?_, ?_, ?_⟩
  · intro _
    refine ⟨rfl, ?_⟩
    intro q hq
    simp only [coreService, List.mem_cons, List.mem_singleton,
      List.not_mem_nil, or_false] at hq
    rcases hq with rfl | rfl <;> rfl
  · intro hcontra
    exact absurd hcontra (show ¬((some 'f' : Option Char) = some 'p') by decide)
  · intro hcontra
    exact absurd hcontra (show ¬((some 'f' : Option Char) = some 'i') by decide)
  · intro hcontra
    exact absurd hcontra (show ¬((some 'f' : Option Char) = some 'd') by decide)

theorem portShape_postgres (m : Member) :
    PortShape ("postgres_" ++ m.id) (postgresService m) := by
  refine ⟨?_, ?_, ?_, ?_⟩
  · intro hcontra
    exact absurd hcontra (show ¬((some 'p' : Option Char) = some 'f') by decide)
  · intro _
    exact ⟨m.exposedPostgresPort, rfl⟩
  · intro hcontra
    exact absurd hcontra (show ¬((some 'p' : Option Char) = some 'i') by decide)
  · intro hcontra
    exact absurd hcontra (show ¬((some 'p' : Option Char) = some 'd') by decide)

theorem portShape_ipfs (sk : String) (m : Member) :
    PortShape ("ipfs_" ++ m.id) (ipfsService sk m) := by
  refine ⟨?_, ?_, ?_, ?_⟩
  · intro hcontra
    exact absurd hcontra (show ¬((some 'i' : Option Char) = some 'f') by decide)
  · intro hcontra
    exact absurd hcontra (show ¬((some 'i' : Option Char) = some 'p') by decide)
  · intro _
    exact ⟨m.exposedIPFSApiPort, m.exposedIPFSGWPort, rfl⟩
  · intro hcontra
    exact absurd hcontra (show ¬((some 'i' : Option Char) = some 'd') by decide)

theorem portShape_dx (m : Member) :
    PortShape ("dataexchange_" ++ m.id) (dataexchangeService m) := by
  refine ⟨?_, ?_, ?_, ?_⟩
  · intro hcontra
    exact absurd hcontra (show ¬((some 'd' : Option Char) = some 'f') by decide)
  · intro hcontra
    exact absurd hcontra (show ¬((some 'd' : Option Char) = some 'p') by decide)
  · intro hcontra
    exact absurd hcontra (show ¬((some 'd' : Option Char) = some 'i') by decide)
  · intro _
    exact ⟨m.exposedDataexchangePort, rfl⟩

theorem PortShapeInv_processMember (sk db : String) (c : DockerComposeConfig)
    (m : Member) (c' : DockerComposeConfig) (h : PortShapeInv c)
    (hp : processMember sk db c m = some c') : PortShapeInv c' := by
  obtain ⟨c2, hx, rfl⟩ := processMember_some hp
  have h1 : PortShapeInv (coreStep c m) := by
    unfold coreStep
    split
    · exact PortShapeInv_addService _ _ h (portShape_core m)
    · exact h
  have h2 : PortShapeInv c2 := by
    unfold postgresStep at hx
    split at hx
    · refine PortShapeInv_amend ?_ hx
      exact PortShapeInv_addService _ _ h1 (portShape_postgres m)
    · exact (Option.some.inj hx) ▸ h1
  have h3 : PortShapeInv (ipfsStep sk c2 m) :=
    PortShapeInv_addService _ _ h2 (portShape_ipfs sk m)
  exact PortShapeInv_addService _ _ h3 (portShape_dx m)

theorem PortShapeInv_empty : PortShapeInv emptyCompose := by
  intro p hp
  simp [emptyCompose] at hp

/-! ## Key existence through the member loop -/

theorem isSome_mapInsert {α : Type} (m : List (String × α)) (k : String)
    (v : α) (k' : String)
    (h : (mapLookup m k').isSome = true ∨ k' = k) :
    (mapLookup (mapInsert m k v) k').isSome = true := by
  by_cases hk : k' = k
  · subst hk
    rw [mapLookup_mapInsert_self]
    rfl
  · rcases h with h | h
    · rw [mapLookup_mapInsert_of_ne m v hk]
      exact h
    · exact absurd h hk

theorem isSome_amend {c c' : DockerComposeConfig} {ck dk cond : String}
    (ha : amendCoreDependsOn c ck dk cond = some c') (k' : String)
    (h : (mapLookup c.services k').isSome = true) :
    (mapLookup c'.services k').isSome = true := by
  unfold amendCoreDependsOn at ha
  cases hl : mapLookup c.services ck with
  | none => rw [hl] at ha; exact Option.noConfusion ha
  | some svc =>
      rw [hl] at ha
      have hc' := (Option.some.inj ha).symm
      subst hc'
      exact isSome_mapInsert c.services ck _ k' (Or.inl h)

theorem postgresStep_preserves {db : String} {c : DockerComposeConfig}
    {m : Member} {c2 : DockerComposeConfig}
    (hx : postgresStep db c m = some c2) (k' : String)
    (h : (mapLookup c.services k').isSome = true) :
    (mapLookup c2.services k').isSome = true := by
  unfold postgresStep at hx
  split at hx
  · exact isSome_amend hx k'
      (isSome_mapInsert c.services ("postgres_" ++ m.id) _ k' (Or.inl h))
  · exact (Option.some.inj hx) ▸ h

theorem lookup_isSome_processMember (sk db : String)
    (c : DockerComposeConfig) (m : Member) (c' : DockerComposeConfig)
    (hp : processMember sk db c m = some c') (k : String)
    (h : (mapLookup c.services k).isSome = true) :
    (mapLookup c'.services k).isSome = true := by
  obtain ⟨c2, hx, rfl⟩ := processMember_some hp
  have h1 : (mapLookup (coreStep c m).services k).isSome = true := by
    unfold coreStep
    split
    · exact isSome_mapInsert c.services ("firefly_core_" ++ m.id) _ k
        (Or.inl h)
    · exact h
  have h2 := postgresStep_preserves hx k h1
  have h3 : (mapLookup (ipfsStep sk c2 m).services k).isSome = true :=
    isSome_mapInsert c2.services ("ipfs_" ++ m.id) _ k (Or.inl h2)
  exact isSome_mapInsert (ipfsStep sk c2 m).services
    ("dataexchange_" ++ m.id) _ k (Or.inl h3)

theorem processMember_keys (sk db : String) (c : DockerComposeConfig)
    (m : Member) (c' : DockerComposeConfig)
    (hp : processMember sk db c m = some c') :
    (m.external = false →
      (mapLookup c'.services ("firefly_core_" ++ m.id)).isSome = true) ∧
    (db = "postgres" →
      (mapLookup c'.services ("postgres_" ++ m.id)).isSome = true) ∧
    (mapLookup c'.services ("ipfs_" ++ m.id)).isSome = true ∧
    (mapLookup c'.services ("dataexchange_" ++ m.id)).isSome = true := by
  obtain ⟨c2, hx, rfl⟩ := processMember_some hp
  refine ⟨?_, ?_, ?_, ?_⟩
  · intro hext
    have h1 : (mapLookup (coreStep c m).services
        ("firefly_core_" ++ m.id)).isSome = true := by
      unfold coreStep
      rw [if_pos hext]
      show (mapLookup (mapInsert c.services ("firefly_core_" ++ m.id)
        (coreService m)) ("firefly_core_" ++ m.id)).isSome = true
      rw [mapLookup_mapInsert_self]
      rfl
    have h2 := postgresStep_preserves hx _ h1
    have h3 := isSome_mapInsert c2.services ("ipfs_" ++ m.id)
      (ipfsService sk m) ("firefly_core_" ++ m.id) (Or.inl h2)
    exact isSome_mapInsert (ipfsStep sk c2 m).services
      ("dataexchange_" ++ m.id) (dataexchangeService m) _ (Or.inl h3)
  · intro hdb
    have h2 : (mapLookup c2.services ("postgres_" ++ m.id)).isSome = true := by
      unfold postgresStep at hx
      rw [if_pos hdb] at hx
      refine isSome_amend hx _ ?_
      show (mapLookup (mapInsert (coreStep c m).services
        ("postgres_" ++ m.id) (postgresService m))
        ("postgres_" ++ m.id)).isSome = true
      rw [mapLookup_mapInsert_self]
      rfl
    have h3 := isSome_mapInsert c2.services ("ipfs_" ++ m.id)
      (ipfsService sk m) ("postgres_" ++ m.id) (Or.inl h2)
    exact isSome_mapInsert (ipfsStep sk c2 m).services
      ("dataexchange_" ++ m.id) (dataexchangeService m) _ (Or.inl h3)
  · have h3 : (mapLookup (ipfsStep sk c2 m).services
        ("ipfs_" ++ m.id)).isSome = true := by
      show (mapLookup (mapInsert c2.services ("ipfs_" ++ m.id)
        (ipfsService sk m)) ("ipfs_" ++ m.id)).isSome = true
      rw [mapLookup_mapInsert_self]
      rfl
    exact isSome_mapInsert (ipfsStep sk c2 m).services
      ("dataexchange_" ++ m.id) (dataexchangeService m) _ (Or.inl h3)
  · show (mapLookup (mapInsert (ipfsStep sk c2 m).services
      ("dataexchange_" ++ m.id) (dataexchangeService m))
      ("dataexchange_" ++ m.id)).isSome = true
    rw [mapLookup_mapInsert_self]
    rfl

theorem fold_member_keys (sk db : String) :
    ∀ (ms : List Member) (c₀ c : DockerComposeConfig),
      List.foldlM (processMember sk db) c₀ ms = some c →
      ∀ m ∈ ms,
        (m.external = false →
          (mapLookup c.services ("firefly_core_" ++ m.id)).isSome = true) ∧
        (db = "postgres" →
          (mapLookup c.services ("postgres_" ++ m.id)).isSome = true) ∧
        (mapLookup c.services ("ipfs_" ++ m.id)).isSome = true ∧
        (mapLookup c.services ("dataexchange_" ++ m.id)).isSome = true := by
  intro ms
  induction ms with
  | nil =>
      intro c₀ c hf m hm
      exact absurd hm (List.not_mem_nil m)
  | cons m0 ms ih =>
      intro c₀ c hf m hm
      rw [List.foldlM_cons] at hf
      cases hx : processMember sk db c₀ m0 with
      | none => rw [hx] at hf; exact Option.noConfusion hf
      | some c₁ =>
          rw [hx] at hf
          rcases List.mem_cons.mp hm with rfl | hm'
          · have hest := processMember_keys sk db c₀ m c₁ hx
            have mono : ∀ k, (mapLookup c₁.services k).isSome = true →
                (mapLookup c.services k).isSome = true := fun k hk =>
              @foldlM_preserve
                (fun cc => (mapLookup cc.services k).isSome = true) sk db
                (fun ca ma cb hca hpm =>
                  lookup_isSome_processMember sk db ca ma cb hpm k hca)
                ms c₁ c hk hf
            exact ⟨fun hx2 => mono _ (hest.1 hx2),
              fun hdb => mono _ (hest.2.1 hdb),
              mono _ hest.2.2.1, mono _ hest.2.2.2⟩
          · exact ih c₁ c hf m hm'

/-! ## Host-port accounting for port disjointness -/

theorem portsOfList_cons (p : String × Service)
    (l : List (String × Service)) :
    portsOfList (p :: l) = hostPortsOf p.2 ++ portsOfList l := rfl

theorem portsOfList_append (l₁ l₂ : List (String × Service)) :
    portsOfList (l₁ ++ l₂) = portsOfList l₁ ++ portsOfList l₂ := by
  induction l₁ with
  | nil => rfl
  | cons p l ih =>
      rw [List.cons_append, portsOfList_cons, portsOfList_cons, ih,
        List.append_assoc]

theorem keys_map_replace (m : List (String × Service)) (k : String)
    (s : Service) :
    (m.map (fun p => if p.1 = k then (k, s) else p)).map Prod.fst =
      m.map Prod.fst := by
  induction m with
  | nil => rfl
  | cons p l ih =>
      rw [List.map_cons, List.map_cons, List.map_cons, ih]
      congr 1
      by_cases hp : p.1 = k
      · rw [if_pos hp]
        exact hp.symm
      · rw [if_neg hp]

theorem keysNodup_mapInsert (m : List (String × Service)) (k : String)
    (s : Service) (h : (m.map Prod.fst).Nodup) :
    ((mapInsert m k s).map Prod.fst).Nodup := by
  unfold mapInsert
  split
  · rw [keys_map_replace]
    exact h
  · rename_i hany
    rw [List.map_append]
    refine List.Nodup.append h (List.nodup_singleton k) ?_
    intro a ha hb
    simp only [List.map_cons, List.map_nil, List.mem_singleton] at hb
    subst hb
    obtain ⟨p, hp, hpk⟩ := List.mem_map.mp ha
    exact hany (List.any_eq_true.mpr ⟨p, hp, by simp [hpk]⟩)

theorem map_replace_idle (m : List (String × Service)) (k : String)
    (s : Service) (h : ∀ p ∈ m, ¬ p.1 = k) :
    m.map (fun p => if p.1 = k then (k, s) else p) = m := by
  induction m with
  | nil => rfl
  | cons p l ih =>
      rw [List.map_cons, if_neg (h p (List.mem_cons_self p l)),
        ih (fun q hq => h q (List.mem_cons_of_mem p hq))]

theorem portsOfList_map_replace_le (m : List (String × Service))
    (k : String) (s : Service) (h : (m.map Prod.fst).Nodup) :
    (↑(portsOfList (m.map (fun p => if p.1 = k then (k, s) else p))) :
      Multiset Nat) ≤ ↑(portsOfList m) + ↑(hostPortsOf s) := by
  induction m with
  | nil =>
      simp [portsOfList]
  | cons p l ih =>
      have hcons := List.nodup_cons.mp
        (show (p.1 :: l.map Prod.fst).Nodup from h)
      rw [List.map_cons, portsOfList_cons, portsOfList_cons,
        ← Multiset.coe_add, ← Multiset.coe_add]
      by_cases hp : p.1 = k
      · rw [if_pos hp]
        have hidle : ∀ q ∈ l, ¬ q.1 = k := by
          intro q hq hc
          apply hcons.1
          rw [hp, ← hc]
          exact List.mem_map_of_mem Prod.fst hq
        rw [map_replace_idle l k s hidle]
        have hmono : (↑(portsOfList l) : Multiset Nat) ≤
            ↑(hostPortsOf p.2) + ↑(portsOfList l) := le_add_self
        calc (↑(hostPortsOf (k, s).2) : Multiset Nat) + ↑(portsOfList l)
            ≤ ↑(hostPortsOf (k, s).2) +
              (↑(hostPortsOf p.2) + ↑(portsOfList l)) :=
              add_le_add_left hmono _
          _ = ↑(hostPortsOf p.2) + ↑(portsOfList l) + ↑(hostPortsOf s) :=
              add_comm _ _
      · rw [if_neg hp]
        calc (↑(hostPortsOf p.2) : Multiset Nat) +
              ↑(portsOfList (l.map (fun q => if q.1 = k then (k, s) else q)))
            ≤ ↑(hostPortsOf p.2) + (↑(portsOfList l) + ↑(hostPortsOf s)) :=
              add_le_add_left (ih hcons.2) _
          _ = ↑(hostPortsOf p.2) + ↑(portsOfList l) + ↑(hostPortsOf s) :=
              (add_assoc _ _ _).symm

theorem portsOfList_map_replace_same (m : List (String × Service))
    (k : String) (s' : Service) (h : (m.map Prod.fst).Nodup)
    (svc : Service) (hl : mapLookup m k = some svc)
    (hports : hostPortsOf s' = hostPortsOf svc) :
    (↑(portsOfList (m.map (fun p => if p.1 = k then (k, s') else p))) :
      Multiset Nat) = ↑(portsOfList m) := by
  induction m with
  | nil => simp [mapLookup] at hl
  | cons p l ih =>
      have hcons := List.nodup_cons.mp
        (show (p.1 :: l.map Prod.fst).Nodup from h)
      rw [mapLookup_cons] at hl
      rw [List.map_cons, portsOfList_cons, portsOfList_cons]
      by_cases hp : p.1 = k
      · rw [if_pos hp] at hl
        rw [if_pos hp]
        have hsvc : svc = p.2 := (Option.some.inj hl).symm
        have hidle : ∀ q ∈ l, ¬ q.1 = k := by
          intro q hq hc
          apply hcons.1
          rw [hp, ← hc]
          exact List.mem_map_of_mem Prod.fst hq
        rw [map_replace_idle l k s' hidle]
        show (↑(hostPortsOf s' ++ portsOfList l) : Multiset Nat) = _
        rw [hports, hsvc]
      · rw [if_neg hp] at hl
        rw [if_neg hp, ← Multiset.coe_add, ← Multiset.coe_add,
          ih hcons.2 hl]

theorem any_of_lookup {m : List (String × Service)} {k : String}
    {svc : Service} (hl : mapLookup m k = some svc) :
    m.any (fun p => p.1 = k) = true :=
  List.any_eq_true.mpr ⟨(k, svc), mapLookup_mem hl, by simp⟩

theorem mapInsert_ports_eq (m : List (String × Service)) (k : String)
    (s' : Service) (h : (m.map Prod.fst).Nodup) (svc : Service)
    (hl : mapLookup m k = some svc)
    (hports : hostPortsOf s' = hostPortsOf svc) :
    (↑(portsOfList (mapInsert m k s')) : Multiset Nat) =
      ↑(portsOfList m) := by
  unfold mapInsert
  rw [if_pos (any_of_lookup hl)]
  exact portsOfList_map_replace_same m k s' h svc hl hports

theorem mapInsert_ports_le (m : List (String × Service)) (k : String)
    (s : Service) (h : (m.map Prod.fst).Nodup) :
    (↑(portsOfList (mapInsert m k s)) : Multiset Nat) ≤
      ↑(portsOfList m) + ↑(hostPortsOf s) := by
  unfold mapInsert
  split
  · exact portsOfList_map_replace_le m k s h
  · rw [portsOfList_append, ← Multiset.coe_add,
      show portsOfList [(k, s)] = hostPortsOf s by simp [portsOfList]]

theorem amend_keysNodup {c c' : DockerComposeConfig} {ck dk cond : String}
    (h : KeysNodup c) (ha : amendCoreDependsOn c ck dk cond = some c') :
    KeysNodup c' := by
  unfold amendCoreDependsOn at ha
  cases hl : mapLookup c.services ck with
  | none => rw [hl] at ha; exact Option.noConfusion ha
  | some svc =>
      rw [hl] at ha
      have hc' := (Option.some.inj ha).symm
      subst hc'
      exact keysNodup_mapInsert c.services ck _ h

theorem amend_ports_eq {c c' : DockerComposeConfig} {ck dk cond : String}
    (h : KeysNodup c) (ha : amendCoreDependsOn c ck dk cond = some c') :
    (↑(portsOfList c'.services) : Multiset Nat) =
      ↑(portsOfList c.services) := by
  unfold amendCoreDependsOn at ha
  cases hl : mapLookup c.services ck with
  | none => rw [hl] at ha; exact Option.noConfusion ha
  | some svc =>
      rw [hl] at ha
      have hc' := (Option.some.inj ha).symm
      subst hc'
      exact mapInsert_ports_eq c.services ck _ h svc hl rfl

theorem processMember_ports (sk db : String) (c : DockerComposeConfig)
    (m : Member) (c' : DockerComposeConfig) (h : KeysNodup c)
    (hp : processMember sk db c m = some c') :
    KeysNodup c' ∧ (↑(portsOfList c'.services) : Multiset Nat) ≤
      ↑(portsOfList c.services) + ↑(memberPorts m) := by
  obtain ⟨c2, hx, rfl⟩ := processMember_some hp
  have hcore : KeysNodup (coreStep c m) ∧
      (↑(portsOfList (coreStep c m).services) : Multiset Nat) ≤
        ↑(portsOfList c.services) + ↑(hostPortsOf (coreService m)) := by
    unfold coreStep
    split
    · exact ⟨keysNodup_mapInsert c.services _ _ h,
        mapInsert_ports_le c.services _ _ h⟩
    · exact ⟨h, Multiset.le_add_right _ _⟩
  have hpg : KeysNodup c2 ∧
      (↑(portsOfList c2.services) : Multiset Nat) ≤
        ↑(portsOfList (coreStep c m).services) +
          ↑(hostPortsOf (postgresService m)) := by
    unfold postgresStep at hx
    split at hx
    · have hN : KeysNodup (addVolume (addService (coreStep c m)
          ("postgres_" ++ m.id) (postgresService m))
          ("postgres_" ++ m.id)) :=
        keysNodup_mapInsert (coreStep c m).services _ _ hcore.1
      refine ⟨amend_keysNodup hN hx, ?_⟩
      rw [amend_ports_eq hN hx]
      exact mapInsert_ports_le (coreStep c m).services _ _ hcore.1
    · obtain rfl := Option.some.inj hx
      exact ⟨hcore.1, Multiset.le_add_right _ _⟩
  have hi : KeysNodup (ipfsStep sk c2 m) ∧
      (↑(portsOfList (ipfsStep sk c2 m).services) : Multiset Nat) ≤
        ↑(portsOfList c2.services) + ↑(hostPortsOf (ipfsService sk m)) :=
    ⟨keysNodup_mapInsert c2.services _ _ hpg.1,
     mapInsert_ports_le c2.services _ _ hpg.1⟩
  have hd : KeysNodup (dxStep (ipfsStep sk c2 m) m) ∧
      (↑(portsOfList (dxStep (ipfsStep sk c2 m) m).services) :
        Multiset Nat) ≤
        ↑(portsOfList (ipfsStep sk c2 m).services) +
          ↑(hostPortsOf (dataexchangeService m)) :=
    ⟨keysNodup_mapInsert (ipfsStep sk c2 m).services _ _ hi.1,
     mapInsert_ports_le (ipfsStep sk c2 m).services _ _ hi.1⟩
  refine ⟨hd.1, ?_⟩
  calc (↑(portsOfList (dxStep (ipfsStep sk c2 m) m).services) :
        Multiset Nat)
      ≤ ↑(portsOfList (ipfsStep sk c2 m).services) +
          ↑(hostPortsOf (dataexchangeService m)) := hd.2
    _ ≤ (↑(portsOfList c2.services) +
          ↑(hostPortsOf (ipfsService sk m))) +
          ↑(hostPortsOf (dataexchangeService m)) :=
        add_le_add_right hi.2 _
    _ ≤ ((↑(portsOfList (coreStep c m).services) +
          ↑(hostPortsOf (postgresService m))) +
          ↑(hostPortsOf (ipfsService sk m))) +
          ↑(hostPortsOf (dataexchangeService m)) :=
        add_le_add_right (add_le_add_right hpg.2 _) _
    _ ≤ (((↑(portsOfList c.services) +
          ↑(hostPortsOf (coreService m))) +
          ↑(hostPortsOf (postgresService m))) +
          ↑(hostPortsOf (ipfsService sk m))) +
          ↑(hostPortsOf (dataexchangeService m)) :=
        add_le_add_right (add_le_add_right (add_le_add_right hcore.2 _) _) _
    _ = ↑(portsOfList c.services) + ↑(memberPorts m) := by
        rw [add_assoc, add_assoc, add_assoc, Multiset.coe_add,
          Multiset.coe_add, Multiset.coe_add]
        rfl

theorem C7_fold (sk db : String) :
    ∀ (ms : List Member) (c₀ c : DockerComposeConfig), KeysNodup c₀ →
      List.foldlM (processMember sk db) c₀ ms = some c →
      KeysNodup c ∧ (↑(portsOfList c.services) : Multiset Nat) ≤
        ↑(portsOfList c₀.services) + ↑(allExposedPorts ms) := by
  intro ms
  induction ms with
  | nil =>
      intro c₀ c h hf
      rw [List.foldlM_nil] at hf
      obtain rfl := Option.some.inj hf
      exact ⟨h, Multiset.le_add_right _ _⟩
  | cons m ms ih =>
      intro c₀ c h hf
      rw [List.foldlM_cons] at hf
      cases hx : processMember sk db c₀ m with
      | none => rw [hx] at hf; exact Option.noConfusion hf
      | some c₁ =>
          rw [hx] at hf
          have hstep := processMember_ports sk db c₀ m c₁ h hx
          have hrest := ih c₁ c hstep.1 hf
          refine ⟨hrest.1, ?_⟩
          calc (↑(portsOfList c.services) : Multiset Nat)
              ≤ ↑(portsOfList c₁.services) + ↑(allExposedPorts ms) :=
                hrest.2
            _ ≤ (↑(portsOfList c₀.services) + ↑(memberPorts m)) +
                ↑(allExposedPorts ms) := add_le_add_right hstep.2 _
            _ = ↑(portsOfList c₀.services) +
                ↑(allExposedPorts (m :: ms)) := by
                rw [add_assoc, Multiset.coe_add]
                rfl

/-! ## Claim theorems -/

/-- Claim C1: the validation layer accepts memberCount 2 with
externalProcessCount 1 and database "postgres", yet `CreateDockerCompose`
on the resulting stack (one external member, postgres) does not return a
topology: the database-dependency amendment dereferences the absent core
service of the external member, a nil-pointer panic in the Go source
(modelled as `none`).  This refutes the claimed totality; the source's own
guard `if !member.External` around core-service creation shows the intent
the claim states. -/
theorem C1_external_postgres_crash :
    initCmdValidate [] 1 "postgres" "geth" "erc1155" "stack1" "2" = none ∧
    CreateDockerCompose c1stack = none := by
  exact ⟨rfl, rfl⟩

/-- Claim C2: for the config with memberCount 2, database "postgres" and no
external processes, the generated topology has exactly 2 core, 2 database,
2 content-store (ipfs) and 2 data-exchange services, and each member's core
service depends on that member's data-exchange service with condition
"service_started" and on its database service with condition
"service_healthy". -/
theorem C2_postgres_scenario :
    CreateDockerCompose c2stack = some c2compose ∧
    countPre c2compose "firefly_core_" = 2 ∧
    countPre c2compose "postgres_" = 2 ∧
    countPre c2compose "ipfs_" = 2 ∧
    countPre c2compose "dataexchange_" = 2 ∧
    (mapLookup c2compose.services "firefly_core_0").map
      (fun s => (mapLookup s.dependsOn "dataexchange_0",
                 mapLookup s.dependsOn "postgres_0")) =
      some (some "service_started", some "service_healthy") ∧
    (mapLookup c2compose.services "firefly_core_1").map
      (fun s => (mapLookup s.dependsOn "dataexchange_1",
                 mapLookup s.dependsOn "postgres_1")) =
      some (some "service_started", some "service_healthy") := by
  decide

/-- Claim C3: `validateCount` fails with NotANumber on every unparsable
input, with NonPositiveCount on every parsed value ≤ 0, with
TooManyExternal whenever the external-process count is ≥ the parsed
member count (equality included), and succeeds whenever the input parses
to a positive integer equal to the external-process count plus one. -/
theorem C3_validateCount (ext : Int) (input : String) :
    (atoi input = none → validateCount ext input = some .notANumber) ∧
    (∀ i : Int, atoi input = some i → i ≤ 0 →
      validateCount ext input = some .nonPositiveCount) ∧
    (∀ i : Int, atoi input = some i → 0 < i → ext ≥ i →
      validateCount ext input = some .tooManyExternal) ∧
    (∀ i : Int, atoi input = some i → 0 < i → ext = i - 1 →
      validateCount ext input = none) := by
  refine ⟨?_, ?_, ?_, ?_⟩
  · intro h
    simp [validateCount, h]
  · intro i h hle
    simp [validateCount, h, hle]
  · intro i h hpos hge
    have h1 : ¬ i ≤ 0 := by omega
    simp [validateCount, h, h1, hge]
  · intro i h hpos hext
    have h1 : ¬ i ≤ 0 := by omega
    have h2 : ¬ ext ≥ i := by omega
    simp [validateCount, h, h1, h2]

/-- Witness for C3: each branch exercised at a concrete input, including
a numeral below the int64 range, which is a NotANumber failure (Go's
`ErrRange`), not a NonPositiveCount one. -/
theorem C3_validateCount_witness :
    validateCount 0 "x" = some .notANumber ∧
    validateCount 0 "-99999999999999999999" = some .notANumber ∧
    validateCount 0 "-3" = some .nonPositiveCount ∧
    validateCount 3 "3" = some .tooManyExternal ∧
    validateCount 2 "3" = none :=
  ⟨(C3_validateCount 0 "x").1 (by decide),
   (C3_validateCount 0 "-99999999999999999999").1 (by decide),
   (C3_validateCount 0 "-3").2.1 (-3) (by decide) (by decide),
   (C3_validateCount 3 "3").2.2.1 3 (by decide) (by decide) (by decide),
   (C3_validateCount 2 "3").2.2.2 3 (by decide) (by decide) (by decide)⟩

/-- Counterexample to claim C4: on an input whose database-provider token
is unknown and whose name is empty, `initCmd` reports the database-provider
failure, not the name failure the claimed order (name, count, then
providers) would give. -/
theorem C4_order_counterexample :
    initCmdValidate [] 0 "nosql" "geth" "erc1155" "" "2" =
      some .unknownDatabaseProvider ∧
    specOrderValidate [] 0 "nosql" "geth" "erc1155" "" "2" =
      some .emptyName ∧
    initCmdValidate [] 0 "nosql" "geth" "erc1155" "" "2" ≠
      specOrderValidate [] 0 "nosql" "geth" "erc1155" "" "2" := by
  exact ⟨rfl, rfl, by decide⟩

/-- Claim C4 as amended: during init the validation predicates are composed
in the fixed order database provider, blockchain provider, tokens provider,
name, count; for every input violating several rules the reported failure
is the one from the earliest predicate in this order. -/
theorem C4_order_amended (existing : List String) (ext : Int)
    (db bc tk name cnt : String) :
    (validateDatabaseProvider db ≠ none →
      initCmdValidate existing ext db bc tk name cnt =
        validateDatabaseProvider db) ∧
    (validateDatabaseProvider db = none → validateBlockchainProvider bc ≠ none →
      initCmdValidate existing ext db bc tk name cnt =
        validateBlockchainProvider bc) ∧
    (validateDatabaseProvider db = none → validateBlockchainProvider bc = none →
      validateTokensProvider tk ≠ none →
      initCmdValidate existing ext db bc tk name cnt =
        validateTokensProvider tk) ∧
    (validateDatabaseProvider db = none → validateBlockchainProvider bc = none →
      validateTokensProvider tk = none → validateName existing name ≠ none →
      initCmdValidate existing ext db bc tk name cnt =
        validateName existing name) ∧
    (validateDatabaseProvider db = none → validateBlockchainProvider bc = none →
      validateTokensProvider tk = none → validateName existing name = none →
      initCmdValidate existing ext db bc tk name cnt =
        validateCount ext cnt) := by
  refine ⟨?_, ?_, ?_, ?_, ?_⟩
  · intro h1
    cases h : validateDatabaseProvider db with
    | none => exact absurd h h1
    | some e => simp [initCmdValidate, h]
  · intro h1 h2
    cases h : validateBlockchainProvider bc with
    | none => exact absurd h h2
    | some e => simp [initCmdValidate, h1, h]
  · intro h1 h2 h3
    cases h : validateTokensProvider tk with
    | none => exact absurd h h3
    | some e => simp [initCmdValidate, h1, h2, h]
  · intro h1 h2 h3 h4
    cases h : validateName existing name with
    | none => exact absurd h h4
    | some e => simp [initCmdValidate, h1, h2, h3, h]
  · intro h1 h2 h3 h4
    simp [initCmdValidate, h1, h2, h3, h4]

/-- Witness for the amended C4: a failing blockchain provider is reported
once the database provider has passed, even though the name is empty. -/
theorem C4_order_amended_witness :
    initCmdValidate [] 0 "sqlite3" "bogus" "erc1155" "" "2" =
      validateBlockchainProvider "bogus" :=
  (C4_order_amended [] 0 "sqlite3" "bogus" "erc1155" "" "2").2.1
    (by decide) (by decide)

/-- Claim C5: for every generated topology (any member list, any database
kind), volume closure holds in both directions: every volume name in any
service's volume-mount list is in the topology's volume set, and every
name in the volume set is referenced by at least one service. -/
theorem C5_volume_closure (stack : Stack) (c : DockerComposeConfig)
    (h : CreateDockerCompose stack = some c) :
    (∀ p ∈ c.services, ∀ v ∈ refNames p.2, v ∈ c.volumes) ∧
    (∀ v ∈ c.volumes, ∃ p ∈ c.services, v ∈ refNames p.2) :=
  (@foldlM_preserve (fun c => KeyRefInv c ∧ VolumeClosure c)
    stack.swarmKey stack.database
    (VC_processMember stack.swarmKey stack.database)
    stack.members emptyCompose c VC_empty h).2

/-- Witness for C5: the closure at a concrete generated topology (two
members, one external, sqlite3). -/
theorem C5_volume_closure_witness :
    (∀ p ∈ c5compose.services, ∀ v ∈ refNames p.2, v ∈ c5compose.volumes) ∧
    (∀ v ∈ c5compose.volumes, ∃ p ∈ c5compose.services, v ∈ refNames p.2) :=
  C5_volume_closure c5stack c5compose (by rfl)

/-- Claim C6: for every generated topology (any member list, any database
kind, any mix of external members), the dependsOn relation is acyclic: no
service depends directly or transitively on itself. -/
theorem C6_dependency_acyclic (stack : Stack) (c : DockerComposeConfig)
    (h : CreateDockerCompose stack = some c) :
    ¬ ∃ a, Relation.TransGen (dependsRel c) a a :=
  DepInv_acyclic
    (@foldlM_preserve DepInv stack.swarmKey stack.database
      (DepInv_processMember stack.swarmKey stack.database)
      stack.members emptyCompose c DepInv_empty h)

/-- Witness for C6: acyclicity at a concrete generated topology (two
members, postgres). -/
theorem C6_dependency_acyclic_witness :
    ¬ ∃ a, Relation.TransGen (dependsRel c6compose) a a :=
  C6_dependency_acyclic c6stack c6compose (by rfl)

/-- Claim C7: for every config whose members' exposed port fields are
pairwise distinct across members and service families (as the basePort+i
derivation guarantees), the published host ports across all generated
services contain no duplicates. -/
theorem C7_port_disjoint (stack : Stack) (c : DockerComposeConfig)
    (h : CreateDockerCompose stack = some c)
    (hnodup : (allExposedPorts stack.members).Nodup) :
    (allHostPorts c).Nodup := by
  have hfold := C7_fold stack.swarmKey stack.database stack.members
    emptyCompose c (by simp [KeysNodup, emptyCompose]) h
  have hle : (↑(portsOfList c.services) : Multiset Nat) ≤
      ↑(allExposedPorts stack.members) := by
    have h2 := hfold.2
    rw [show portsOfList emptyCompose.services = ([] : List Nat) from rfl]
      at h2
    simpa using h2
  exact Multiset.coe_nodup.mp
    (Multiset.nodup_of_le hle (Multiset.coe_nodup.mpr hnodup))

/-- Witness for C7: no duplicate host port in the topology of a concrete
two-member postgres stack with distinct exposed ports. -/
theorem C7_port_disjoint_witness : (allHostPorts c7compose).Nodup :=
  C7_port_disjoint c7stack c7compose (by rfl) (by decide)

/-- Claim C10: for every non-external member the core service publishes
exactly two port pairs, each mapping a host port to the identical container
port, while the database, content-store and data-exchange services map
their host ports to the fixed container ports 5432, (5001, 8080) and 3000
respectively, independent of the member's configuration. -/
theorem C10_port_shapes (stack : Stack) (c : DockerComposeConfig)
    (h : CreateDockerCompose stack = some c) (m : Member)
    (hm : m ∈ stack.members) :
    (m.external = false →
      ∃ s, mapLookup c.services ("firefly_core_" ++ m.id) = some s ∧
        s.ports.length = 2 ∧ ∀ q ∈ s.ports, q.1 = q.2) ∧
    (∀ s, mapLookup c.services ("postgres_" ++ m.id) = some s →
      ∃ hp, s.ports = [(hp, 5432)]) ∧
    (∃ s, mapLookup c.services ("ipfs_" ++ m.id) = some s ∧
      ∃ ha hg, s.ports = [(ha, 5001), (hg, 8080)]) ∧
    (∃ s, mapLookup c.services ("dataexchange_" ++ m.id) = some s ∧
      ∃ hd, s.ports = [(hd, 3000)]) := by
  have hshape : PortShapeInv c :=
    @foldlM_preserve PortShapeInv stack.swarmKey stack.database
      (PortShapeInv_processMember stack.swarmKey stack.database)
      stack.members emptyCompose c PortShapeInv_empty h
  have hkeys := fold_member_keys stack.swarmKey stack.database
    stack.members emptyCompose c h m hm
  refine ⟨?_, ?_, ?_, ?_⟩
  · intro hext
    obtain ⟨s, hs⟩ := Option.isSome_iff_exists.mp (hkeys.1 hext)
    exact ⟨s, hs, (hshape _ (mapLookup_mem hs)).1 rfl⟩
  · intro s hs
    exact (hshape _ (mapLookup_mem hs)).2.1 rfl
  · obtain ⟨s, hs⟩ := Option.isSome_iff_exists.mp hkeys.2.2.1
    exact ⟨s, hs, (hshape _ (mapLookup_mem hs)).2.2.1 rfl⟩
  · obtain ⟨s, hs⟩ := Option.isSome_iff_exists.mp hkeys.2.2.2
    exact ⟨s, hs, (hshape _ (mapLookup_mem hs)).2.2.2 rfl⟩

/-- Witness for C10: the port shapes of member "a" of a concrete
two-member postgres stack. -/
theorem C10_port_shapes_witness :
    (∃ s, mapLookup c10compose.services "firefly_core_a" = some s ∧
      s.ports.length = 2 ∧ ∀ q ∈ s.ports, q.1 = q.2) ∧
    (∃ s, mapLookup c10compose.services "dataexchange_a" = some s ∧
      ∃ hd, s.ports = [(hd, 3000)]) :=
  ⟨(C10_port_shapes c10stack c10compose (by rfl) (mkMember "a" 6000 false)
      (by simp [c10stack])).1 rfl,
   (C10_port_shapes c10stack c10compose (by rfl) (mkMember "a" 6000 false)
      (by simp [c10stack])).2.2.2⟩

/-- Claim C8: resetting an existing stack without `--force` and with a
declined (non-affirmative) confirmation returns success and leaves the
persisted records untouched. -/
theorem C8_reset_declined (records : List (String × StackRecord))
    (name : String) (confirm : Option String)
    (hex : (mapLookup records name).isSome = true)
    (hdecl : confirmAffirmative confirm = false) :
    resetCmd records false [name] confirm = .ok records := by
  simp [resetCmd, hex, hdecl]

/-- Witness for C8: declining with "n" on an existing stack. -/
theorem C8_reset_declined_witness :
    resetCmd [("stack1", { config := "cfg", data := ["d1"] })] false
      ["stack1"] (some "n") =
      .ok [("stack1", { config := "cfg", data := ["d1"] })] :=
  C8_reset_declined [("stack1", { config := "cfg", data := ["d1"] })]
    "stack1" (some "n") (by decide) (by decide)

/-- Claim C9: `validateBlockchainProvider` fails with the unsupported
provider error for every token the registry parses to a non-GoEthereum
value, succeeds exactly on the allow-list token "geth", and the allow-list
is strictly narrower than the registry's parse set ("besu" parses but is
rejected). -/
theorem C9_blockchain_policy :
    (∀ s p, BlockchainProviderFromString s = some p →
      p ≠ BlockchainProvider.goEthereum →
      validateBlockchainProvider s = some .unsupportedBlockchainProvider) ∧
    (∀ s, validateBlockchainProvider s = none ↔ s = "geth") ∧
    (∃ s, (BlockchainProviderFromString s).isSome = true ∧
      validateBlockchainProvider s ≠ none) := by
  refine ⟨?_, ?_, ⟨"besu", by decide, by decide⟩⟩
  · intro s p h hp
    simp [validateBlockchainProvider, h, hp]
  · intro s
    by_cases h1 : s = "geth"
    · simp [validateBlockchainProvider, BlockchainProviderFromString, h1]
    · by_cases h2 : s = "besu" <;>
        simp [validateBlockchainProvider, BlockchainProviderFromString, h1, h2]

/-- Witness for C9: applying the policy theorem at the parseable but
unsupported token "besu". -/
theorem C9_blockchain_policy_witness :
    validateBlockchainProvider "besu" = some .unsupportedBlockchainProvider :=
  C9_blockchain_policy.1 "besu" .besu (by decide) (by decide)

end FireflyCli
